import Mathlib

/-!
A verification development for the tracr split-computing repository.

The file shallowly embeds the device-management layer
(src/api/device_mgmt.py: SSHConnectionParams, Device), the response
framing and the serving loop of the networked server (server.py), and
the split-boundary sweep of the experiment controller
(src/utils/experiment_utils.py).  External effects (filesystem checks,
key loading, network reachability, the staged computation, the
compression codec, float formatting) are passed in as explicit oracle
values, so that every definition stays a computable function of its
inputs; everything else follows the Python source line by line.
-/

/-! ## Python string primitives used by the embedded code -/

/-- Model of Python str.strip with no argument: remove leading and
trailing whitespace.  (Python strips the Unicode whitespace class; the
usernames and attribute keys involved here only contain ASCII
whitespace, which Char.isWhitespace covers.) -/
def pyStrip (s : String) : String :=
  String.mk (((s.data.dropWhile Char.isWhitespace).reverse.dropWhile
      Char.isWhitespace).reverse)

/-- Model of Python str.lower, character by character.  (Lean maps the
ASCII range; the attribute keys compared by the embedded code are
ASCII.) -/
def pyLower (s : String) : String :=
  String.mk (s.data.map Char.toLower)

/-- Model of a Python `x or d` fallback on an optional integer field as
used for ssh_port: None and 0 are falsy and select the default. -/
def pyOrDefault (x : Option Nat) (d : Nat) : Nat :=
  match x with
  | none => d
  | some n => if n = 0 then d else n

/-! ## SSHConnectionParams (src/api/device_mgmt.py)

The constructor runs `_set_username` (strip, then require
0 < len < 32, else ValueError) and afterwards `_set_rsa_key` (resolve
the path, require it to exist and be a regular file, detect and load
the key, any failure becoming a ValueError).  The filesystem and key
parsing are outside the embedded sources, so `_set_rsa_key` is driven
by an oracle: `keyLoad = some p` means every filesystem step succeeded
and resolved the key to path `p`; `keyLoad = none` means some step
failed. -/

/-- Failure modes of the SSHConnectionParams constructor (both are
Python ValueError; the spec calls the username case ValidationError). -/
inductive CredError where
  | invalidUsername
  | invalidKey
deriving DecidableEq

/-- One SSH identity, as stored by a successfully constructed
SSHConnectionParams. -/
structure SSHConnectionParams where
  host : String
  username : String
  private_key_path : String
  experiment_port : Option Nat
  ssh_port : Nat
  is_default : Bool
deriving DecidableEq

/-- The SSHConnectionParams constructor: `_set_username` first (strip,
then `0 < len(clean) < 32`), then `_set_rsa_key` via the `keyLoad`
oracle, then the remaining field assignments, with
`ssh_port or SSH_PORT` defaulting to 22. -/
def mkParams (host username : String) (keyLoad : Option String)
    (port ssh_port : Option Nat) (is_default : Bool) :
    Except CredError SSHConnectionParams :=
  if 0 < (pyStrip username).length ∧ (pyStrip username).length < 32 then
    match keyLoad with
    | some kp =>
        Except.ok ⟨host, pyStrip username, kp, port,
          pyOrDefault ssh_port 22, is_default⟩
    | none => Except.error CredError.invalidKey
  else Except.error CredError.invalidUsername

/-- Claim C1: constructing SSHConnectionParams validates the trimmed
username.  If the stripped username has length 0 or at least 32 the
constructor fails with the username ValueError, whatever the key
oracle says; if the stripped length is between 1 and 31 and the key
loads (absent other failures), construction succeeds and the stored
username is the stripped one. -/
theorem username_validation_spec (hostS u kp : String)
    (port sp : Option Nat) (b : Bool) :
    (((pyStrip u).length = 0 ∨ 32 ≤ (pyStrip u).length) →
      ∀ keyLoad, mkParams hostS u keyLoad port sp b =
        Except.error CredError.invalidUsername)
    ∧ (1 ≤ (pyStrip u).length → (pyStrip u).length ≤ 31 →
      ∃ cp, mkParams hostS u (some kp) port sp b = Except.ok cp ∧
        cp.username = pyStrip u) := by
  constructor
  · intro h keyLoad
    have hc : ¬(0 < (pyStrip u).length ∧ (pyStrip u).length < 32) := by
      omega
    simp [mkParams, hc]
  · intro h1 h2
    have hc : 0 < (pyStrip u).length ∧ (pyStrip u).length < 32 := by
      omega
    exact ⟨⟨hostS, pyStrip u, kp, port, pyOrDefault sp 22, b⟩,
      by simp [mkParams, hc], rfl⟩

/-- Claim C1, witness: a username of stripped length 0 is rejected even
with a loadable key, and a padded 5-character username is accepted and
stored stripped. -/
theorem username_validation_spec_witness :
    mkParams "10.0.0.1" "   " (some "config/pkeys/id_rsa") none none true =
      Except.error CredError.invalidUsername
    ∧ ∃ cp,
        mkParams "10.0.0.1" "  alice  " (some "config/pkeys/id_rsa")
          none none true = Except.ok cp ∧
        cp.username = pyStrip "  alice  " :=
  ⟨(username_validation_spec "10.0.0.1" "   " "config/pkeys/id_rsa"
      none none true).1 (by decide) (some "config/pkeys/id_rsa"),
   (username_validation_spec "10.0.0.1" "  alice  " "config/pkeys/id_rsa"
      none none true).2 (by decide) (by decide)⟩

/-! ## Device (src/api/device_mgmt.py)

`Device.__init__` walks the connection_params entries of a device
record.  For each entry it first runs the filesystem permission check
`SSHKeyHandler.check_key_permissions` (whose implementation lives in
remote_connection.py, outside the embedded sources, and is therefore
an oracle here) and skips the entry when the check fails; only then
does it attempt `SSHConnectionParams.from_dict`, skipping the entry on
any ValueError or SSHError.  If no entry survives it raises SSHError;
otherwise it sorts the survivors with
`sorted(key=cp.is_default, reverse=True)` (a stable sort putting
default-flagged credentials first) and binds the first reachable one,
or None. -/

/-- One raw connection_params entry together with the results of its
two filesystem oracles: `permissionsOk` is what
`SSHKeyHandler.check_key_permissions` returns for its key file, and
`keyLoad` drives the key-loading step of the constructor (see
`mkParams`).  The dictionary is modelled with its required keys
present; `is_default` carries the `source.get("default", True)`
value. -/
structure ConnRecord where
  permissionsOk : Bool
  host : String
  user : String
  keyLoad : Option String
  port : Option Nat
  ssh_port : Option Nat
  is_default : Bool
deriving DecidableEq

/-- The per-entry body of the validation loop in `Device.__init__`:
skip when the permission check fails (before any constructor
validation runs), then construct, skipping on constructor failure. -/
def processRecord (r : ConnRecord) : Option SSHConnectionParams :=
  if r.permissionsOk then
    match mkParams r.host r.user r.keyLoad r.port r.ssh_port r.is_default with
    | Except.ok cp => some cp
    | Except.error _ => none
  else none

/-- Insertion step of a stable descending sort on a Bool key: a later
element x is placed before an earlier element y exactly when
key x = true and key y = false, so equal keys keep their input
order. -/
def pyInsertDescBool (k : α → Bool) (x : α) : List α → List α
  | [] => [x]
  | y :: ys =>
      if k x && !(k y) then x :: y :: ys else y :: pyInsertDescBool k x ys

/-- Model of Python `sorted(xs, key=k, reverse=True)` for a Bool-valued
key.  Python sorted is a stable sort, and the output of a stable sort
is uniquely determined by the key, so this insertion sort and Timsort
agree as functions. -/
def pySortDescBool (k : α → Bool) (xs : List α) : List α :=
  xs.foldl (fun acc x => pyInsertDescBool k x acc) []

theorem pyInsertDescBool_partition (k : α → Bool) (x : α) :
    ∀ (A B : List α), (∀ a ∈ A, k a = true) → (∀ b ∈ B, k b = false) →
      pyInsertDescBool k x (A ++ B) =
        if k x then A ++ x :: B else A ++ (B ++ [x]) := by
  intro A
  induction A with
  | nil =>
      intro B _ hB
      induction B with
      | nil => cases hkx : k x <;> simp [pyInsertDescBool, hkx]
      | cons b bs ihB =>
          have hb : k b = false := hB b (List.mem_cons_self b bs)
          have ihB2 := ihB (fun y hy => hB y (List.mem_cons_of_mem b hy))
          cases hkx : k x with
          | true => simp [pyInsertDescBool, hkx, hb]
          | false =>
              simp only [List.nil_append] at ihB2 ⊢
              simp [pyInsertDescBool, hkx, hb, ihB2]
  | cons a as ihA =>
      intro B hA hB
      have ha : k a = true := hA a (List.mem_cons_self a as)
      have ihA2 := ihA B (fun y hy => hA y (List.mem_cons_of_mem a hy)) hB
      cases hkx : k x with
      | true =>
          simp only [List.cons_append, pyInsertDescBool, hkx, ha]
          simp only [hkx] at ihA2
          simp [ihA2]
      | false =>
          simp only [List.cons_append, pyInsertDescBool, hkx, ha]
          simp only [hkx] at ihA2
          simp [ihA2]

theorem pySortDescBool_foldl (k : α → Bool) :
    ∀ (xs A B : List α), (∀ a ∈ A, k a = true) → (∀ b ∈ B, k b = false) →
      xs.foldl (fun acc x => pyInsertDescBool k x acc) (A ++ B) =
        (A ++ xs.filter (fun a => k a)) ++ (B ++ xs.filter (fun a => !(k a))) := by
  intro xs
  induction xs with
  | nil => intro A B _ _; simp
  | cons x xs ih =>
      intro A B hA hB
      simp only [List.foldl_cons]
      rw [pyInsertDescBool_partition k x A B hA hB]
      cases hkx : k x with
      | true =>
          have hx : A ++ x :: B = (A ++ [x]) ++ B := by simp
          rw [if_pos rfl, hx,
            ih (A ++ [x]) B
              (by intro a ha
                  rcases List.mem_append.mp ha with h | h
                  · exact hA a h
                  · simp at h; subst h; exact hkx)
              hB]
          simp [List.filter_cons, hkx]
      | false =>
          rw [if_neg (by simp),
            ih A (B ++ [x]) hA
              (by intro b hb
                  rcases List.mem_append.mp hb with h | h
                  · exact hB b h
                  · simp at h; subst h; exact hkx)]
          simp [List.filter_cons, hkx]

/-- The stable descending Bool-key sort is exactly the stable
partition: key-true elements in input order, then key-false elements
in input order. -/
theorem pySortDescBool_eq_partition (k : α → Bool) (xs : List α) :
    pySortDescBool k xs =
      xs.filter (fun a => k a) ++ xs.filter (fun a => !(k a)) := by
  have h := pySortDescBool_foldl k xs [] [] (by simp) (by simp)
  simpa [pySortDescBool] using h

/-- The failure mode of `Device.__init__` when no connection entry
survives the permission and validation checks (SSHError in the
source). -/
inductive DeviceInitError where
  | noValidConnections
deriving DecidableEq

/-- A constructed Device: its type tag, the validated credentials in
defaults-first order, and the working credential bound at construction
time (None when nothing was reachable). -/
structure Device where
  device_type : String
  connection_params : List SSHConnectionParams
  working_cparams : Option SSHConnectionParams
deriving DecidableEq

/-- `Device.__init__`: filter the entries through the permission check
and the constructor, fail when nothing survives, sort survivors
defaults first, and bind the first credential the reachability oracle
accepts (`next((cp for cp in ... if cp.is_host_reachable()), None)`).
The reachability probe is a network effect and enters as the oracle
`reach`. -/
def mkDevice (device_type : String) (reach : SSHConnectionParams → Bool)
    (records : List ConnRecord) : Except DeviceInitError Device :=
  match records.filterMap processRecord with
  | [] => Except.error DeviceInitError.noValidConnections
  | c :: cs =>
      Except.ok ⟨device_type,
        pySortDescBool (fun cp => cp.is_default) (c :: cs),
        (pySortDescBool (fun cp => cp.is_default) (c :: cs)).find? reach⟩

theorem mkDevice_ok_inv (dt : String) (reach : SSHConnectionParams → Bool)
    (records : List ConnRecord) (d : Device)
    (h : mkDevice dt reach records = Except.ok d) :
    d.device_type = dt ∧
    d.connection_params =
      pySortDescBool (fun cp => cp.is_default)
        (records.filterMap processRecord) ∧
    d.working_cparams = d.connection_params.find? reach := by
  unfold mkDevice at h
  cases hv : records.filterMap processRecord with
  | nil => rw [hv] at h; cases h
  | cons c cs =>
      rw [hv] at h
      cases h
      exact ⟨rfl, rfl, rfl⟩

/-! ## Device accessors (src/api/device_mgmt.py)

`get_host`, `get_port`, `get_username` and `get_private_key_path` read
an attribute of `self.working_cparams`.  When no working credential
was bound that object is None and the attribute access fails (the
failure the spec names NotBoundError); a fallible accessor is embedded
as an Except value. -/

/-- The failure of a DeviceRecord accessor used without a bound
working credential (NotBoundError in the spec). -/
inductive AccessError where
  | notBound
deriving DecidableEq

/-- `Device.get_host`: host of the working credential. -/
def Device.get_host (d : Device) : Except AccessError String :=
  match d.working_cparams with
  | some cp => Except.ok cp.host
  | none => Except.error AccessError.notBound

/-- `Device.get_port`: experiment port of the working credential. -/
def Device.get_port (d : Device) : Except AccessError (Option Nat) :=
  match d.working_cparams with
  | some cp => Except.ok cp.experiment_port
  | none => Except.error AccessError.notBound

/-- `Device.get_username`: username of the working credential. -/
def Device.get_username (d : Device) : Except AccessError String :=
  match d.working_cparams with
  | some cp => Except.ok cp.username
  | none => Except.error AccessError.notBound

/-- `Device.get_private_key_path`: key path of the working
credential. -/
def Device.get_private_key_path (d : Device) : Except AccessError String :=
  match d.working_cparams with
  | some cp => Except.ok cp.private_key_path
  | none => Except.error AccessError.notBound

/-- `Device.is_reachable`: whether a working credential was bound at
construction time. -/
def Device.is_reachable (d : Device) : Bool :=
  d.working_cparams.isSome

/-- `Device.get_attribute`: lowercase then strip the attribute key and
compare it against the finite host and user key sets of the working
credential; every other key, and every call on a device without a
working credential, yields None.  The function is total by type: it
can only return an Option, never fail. -/
def Device.get_attribute (d : Device) (attr : String) : Option String :=
  match d.working_cparams with
  | some cp =>
      if pyStrip (pyLower attr) = "host" ∨
          pyStrip (pyLower attr) = "hostname" ∨
          pyStrip (pyLower attr) = "host name" then some cp.host
      else if pyStrip (pyLower attr) = "user" ∨
          pyStrip (pyLower attr) = "username" ∨
          pyStrip (pyLower attr) = "usr" ∨
          pyStrip (pyLower attr) = "user name" then some cp.username
      else none
  | none => none

/-- Claim C2: on a Device whose working_cparams is None, each of the
four accessors fails with the not-bound error. -/
theorem accessors_fail_when_unbound (d : Device)
    (h : d.working_cparams = none) :
    d.get_host = Except.error AccessError.notBound
    ∧ d.get_port = Except.error AccessError.notBound
    ∧ d.get_username = Except.error AccessError.notBound
    ∧ d.get_private_key_path = Except.error AccessError.notBound := by
  refine ⟨?_, ?_, ?_, ?_⟩ <;>
    simp [Device.get_host, Device.get_port, Device.get_username,
      Device.get_private_key_path, h]

/-- Claim C2, witness: a concrete unbound device. -/
theorem accessors_fail_when_unbound_witness :
    (Device.mk "SERVER" [] none).get_host =
        Except.error AccessError.notBound
    ∧ (Device.mk "SERVER" [] none).get_port =
        Except.error AccessError.notBound
    ∧ (Device.mk "SERVER" [] none).get_username =
        Except.error AccessError.notBound
    ∧ (Device.mk "SERVER" [] none).get_private_key_path =
        Except.error AccessError.notBound :=
  accessors_fail_when_unbound (Device.mk "SERVER" [] none) rfl

/-- Claim C3, counterexample: a device record with one credential
whose key file fails the permission check plus one fully valid
credential.  Construction does NOT fail with any permission error: it
succeeds, silently dropping the offending credential, so the claim
that construction fails with PermissionError is false on this
input. -/
theorem permission_failure_not_fatal_counterexample :
    mkDevice "SERVER" (fun _ => false)
      [⟨false, "192.168.1.9", "alice", some "keyA", some 9000, none, true⟩,
       ⟨true, "192.168.1.10", "bob", some "keyB", some 9000, none, true⟩] =
    Except.ok
      ⟨"SERVER", [⟨"192.168.1.10", "bob", "keyB", some 9000, 22, true⟩],
        none⟩ := by
  rfl

/-- Claim C3 (amended): a credential whose private-key file has overly
permissive permissions is rejected by being skipped, before any
credential validation runs (processRecord ignores every other field of
the entry), and its presence never makes construction fail:
construction behaves exactly as if the entry were absent, so it fails
only when no credential at all passes both checks. -/
theorem permission_check_skips_credential (r : ConnRecord)
    (h : r.permissionsOk = false) :
    processRecord r = none
    ∧ ∀ (dt : String) (reach : SSHConnectionParams → Bool)
        (rest : List ConnRecord),
        mkDevice dt reach (r :: rest) = mkDevice dt reach rest := by
  have hp : processRecord r = none := by simp [processRecord, h]
  refine ⟨hp, ?_⟩
  intro dt reach rest
  unfold mkDevice
  rw [List.filterMap_cons_none hp]

/-- Claim C3 (amended), witness: the bad-permission credential of the
counterexample record is indeed skipped. -/
theorem permission_check_skips_credential_witness :
    processRecord
      ⟨false, "192.168.1.9", "alice", some "keyA", some 9000, none, true⟩ =
      none :=
  (permission_check_skips_credential
    ⟨false, "192.168.1.9", "alice", some "keyA", some 9000, none, true⟩
    rfl).1

/-- Claim C4: a device record none of whose credentials pass the
checks fails construction outright (configuration error), while a
record with at least one surviving credential, all unreachable, is
still constructed and reports is_reachable false (runtime
condition). -/
theorem device_config_error_vs_unreachable (dt : String)
    (reach : SSHConnectionParams → Bool) (records : List ConnRecord) :
    (records.filterMap processRecord = [] →
      mkDevice dt reach records =
        Except.error DeviceInitError.noValidConnections)
    ∧ (records.filterMap processRecord ≠ [] →
      (∀ cp ∈ records.filterMap processRecord, reach cp = false) →
      ∃ d, mkDevice dt reach records = Except.ok d ∧
        d.is_reachable = false) := by
  constructor
  · intro h
    unfold mkDevice
    rw [h]
  · intro hne hall
    cases hv : records.filterMap processRecord with
    | nil => exact absurd hv hne
    | cons c cs =>
        have hd : mkDevice dt reach records = Except.ok
            ⟨dt, pySortDescBool (fun cp => cp.is_default) (c :: cs),
              (pySortDescBool (fun cp => cp.is_default) (c :: cs)).find?
                reach⟩ := by
          unfold mkDevice
          rw [hv]
        have hnone :
            (pySortDescBool (fun cp => cp.is_default) (c :: cs)).find? reach
              = none := by
          apply List.find?_eq_none.mpr
          intro x hx
          have hmem : x ∈ c :: cs := by
            rw [pySortDescBool_eq_partition] at hx
            rcases List.mem_append.mp hx with hm | hm
            · exact List.mem_of_mem_filter hm
            · exact List.mem_of_mem_filter hm
          have := hall x (hv ▸ hmem)
          simp [this]
        exact ⟨_, hd, by simp [Device.is_reachable, hnone]⟩

/-- Claim C4, witness: one valid but unreachable credential still
yields a constructed, unreachable device. -/
theorem device_config_error_vs_unreachable_witness :
    ∃ d, mkDevice "SERVER" (fun _ => false)
        [⟨true, "10.0.0.5", "carol", some "keyC", some 9000, none, true⟩] =
        Except.ok d ∧ d.is_reachable = false :=
  (device_config_error_vs_unreachable "SERVER" (fun _ => false)
    [⟨true, "10.0.0.5", "carol", some "keyC", some 9000, none, true⟩]).2
    (by decide) (by decide)

/-- Claim C5: the credentials sequence of a constructed Device is the
stable partition of the surviving credentials: every default-flagged
credential first, then every non-default one, each group in input
order. -/
theorem credentials_defaults_first (dt : String)
    (reach : SSHConnectionParams → Bool) (records : List ConnRecord)
    (d : Device) (h : mkDevice dt reach records = Except.ok d) :
    d.connection_params =
      (records.filterMap processRecord).filter (fun cp => cp.is_default)
      ++ (records.filterMap processRecord).filter
          (fun cp => !cp.is_default) := by
  rcases mkDevice_ok_inv dt reach records d h with ⟨-, h2, -⟩
  rw [h2, pySortDescBool_eq_partition]

/-- Claim C5, witness: a non-default credential listed first is placed
after the default credential listed second. -/
theorem credentials_defaults_first_witness :
    (Device.mk "PARTICIPANT"
        [⟨"192.168.1.3", "eve", "keyB", some 9000, 22, true⟩,
         ⟨"192.168.1.2", "dan", "keyA", some 9000, 22, false⟩]
        none).connection_params =
      (([⟨true, "192.168.1.2", "dan", some "keyA", some 9000, none, false⟩,
         ⟨true, "192.168.1.3", "eve", some "keyB", some 9000, none, true⟩]
          : List ConnRecord).filterMap processRecord).filter
        (fun cp => cp.is_default)
      ++ (([⟨true, "192.168.1.2", "dan", some "keyA", some 9000, none, false⟩,
            ⟨true, "192.168.1.3", "eve", some "keyB", some 9000, none, true⟩]
          : List ConnRecord).filterMap processRecord).filter
        (fun cp => !cp.is_default) :=
  credentials_defaults_first "PARTICIPANT" (fun _ => false)
    [⟨true, "192.168.1.2", "dan", some "keyA", some 9000, none, false⟩,
     ⟨true, "192.168.1.3", "eve", some "keyB", some 9000, none, true⟩]
    (Device.mk "PARTICIPANT"
      [⟨"192.168.1.3", "eve", "keyB", some 9000, 22, true⟩,
       ⟨"192.168.1.2", "dan", "keyA", some 9000, 22, false⟩]
      none)
    (by rfl)

/-- Claim C6: the working credential is the first reachable credential
of the resolved sequence: on a device whose resolved credentials are
[A, B, C] with A unreachable and B reachable, the binding is B, and
when every resolved credential is unreachable nothing is bound. -/
theorem working_credential_selection (dt : String)
    (reach : SSHConnectionParams → Bool) (records : List ConnRecord)
    (d : Device) (h : mkDevice dt reach records = Except.ok d) :
    (∀ A B C, d.connection_params = [A, B, C] → reach A = false →
      reach B = true → d.working_cparams = some B)
    ∧ ((∀ cp ∈ d.connection_params, reach cp = false) →
      d.working_cparams = none) := by
  rcases mkDevice_ok_inv dt reach records d h with ⟨-, -, h3⟩
  constructor
  · intro A B C hl hA hB
    rw [h3, hl, List.find?_cons_of_neg _ (by simp [hA]),
      List.find?_cons_of_pos _ hB]
  · intro hall
    rw [h3]
    exact List.find?_eq_none.mpr (fun x hx => by simp [hall x hx])

/-- Claim C6, witness: three resolved credentials with the first
unreachable and the next two reachable bind the second one. -/
theorem working_credential_selection_witness :
    Device.working_cparams
      (Device.mk "SERVER"
        [⟨"192.168.1.21", "u", "k1", some 9000, 22, true⟩,
         ⟨"192.168.1.22", "u", "k2", some 9000, 22, true⟩,
         ⟨"192.168.1.23", "u", "k3", some 9000, 22, true⟩]
        (some ⟨"192.168.1.22", "u", "k2", some 9000, 22, true⟩)) =
      some ⟨"192.168.1.22", "u", "k2", some 9000, 22, true⟩ :=
  (working_credential_selection "SERVER"
    (fun cp => cp.host != "192.168.1.21")
    [⟨true, "192.168.1.21", "u", some "k1", some 9000, none, true⟩,
     ⟨true, "192.168.1.22", "u", some "k2", some 9000, none, true⟩,
     ⟨true, "192.168.1.23", "u", some "k3", some 9000, none, true⟩]
    (Device.mk "SERVER"
      [⟨"192.168.1.21", "u", "k1", some 9000, 22, true⟩,
       ⟨"192.168.1.22", "u", "k2", some 9000, 22, true⟩,
       ⟨"192.168.1.23", "u", "k3", some 9000, 22, true⟩]
      (some ⟨"192.168.1.22", "u", "k2", some 9000, 22, true⟩))
    (by rfl)).1
    ⟨"192.168.1.21", "u", "k1", some 9000, 22, true⟩
    ⟨"192.168.1.22", "u", "k2", some 9000, 22, true⟩
    ⟨"192.168.1.23", "u", "k3", some 9000, 22, true⟩
    rfl (by decide) (by decide)

/-- Claim C10: get_attribute is total (its type is Option, it cannot
fail) and returns None whenever no working credential is bound; on a
bound device it returns the host for every key whose lowercased,
stripped form is one of the host spellings, the username for every
key whose lowercased, stripped form is one of the user spellings, and
None for every other key. -/
theorem get_attribute_spec (d : Device) (a : String) :
    (d.working_cparams = none → d.get_attribute a = none)
    ∧ ∀ cp, d.working_cparams = some cp →
      ((pyStrip (pyLower a) = "host" ∨ pyStrip (pyLower a) = "hostname" ∨
          pyStrip (pyLower a) = "host name") →
        d.get_attribute a = some cp.host)
      ∧ ((pyStrip (pyLower a) = "user" ∨ pyStrip (pyLower a) = "username" ∨
          pyStrip (pyLower a) = "usr" ∨ pyStrip (pyLower a) = "user name") →
        d.get_attribute a = some cp.username)
      ∧ (¬(pyStrip (pyLower a) = "host" ∨ pyStrip (pyLower a) = "hostname" ∨
            pyStrip (pyLower a) = "host name") →
         ¬(pyStrip (pyLower a) = "user" ∨ pyStrip (pyLower a) = "username" ∨
            pyStrip (pyLower a) = "usr" ∨ pyStrip (pyLower a) = "user name") →
        d.get_attribute a = none) := by
  constructor
  · intro h
    simp [Device.get_attribute, h]
  · intro cp hcp
    refine ⟨?_, ?_, ?_⟩
    · intro hh
      simp [Device.get_attribute, hcp, hh]
    · intro hu
      have hh : ¬(pyStrip (pyLower a) = "host" ∨
          pyStrip (pyLower a) = "hostname" ∨
          pyStrip (pyLower a) = "host name") := by
        rcases hu with h | h | h | h <;> rw [h] <;> decide
      simp [Device.get_attribute, hcp, hh, hu]
    · intro hh hu
      simp [Device.get_attribute, hcp, hh, hu]

/-- Claim C10, witness: an unbound device returns None, and a bound
device answers a padded mixed-case host-name key with the host. -/
theorem get_attribute_spec_witness :
    (Device.mk "SERVER" [] none).get_attribute "host" = none
    ∧ Device.get_attribute
        (Device.mk "SERVER" []
          (some ⟨"10.0.0.9", "dave", "keyD", some 9000, 22, true⟩))
        "  HoSt NaMe  " = some "10.0.0.9" :=
  ⟨(get_attribute_spec (Device.mk "SERVER" [] none) "host").1 rfl,
   ((get_attribute_spec
      (Device.mk "SERVER" []
        (some ⟨"10.0.0.9", "dave", "keyD", some 9000, 22, true⟩))
      "  HoSt NaMe  ").2
      ⟨"10.0.0.9", "dave", "keyD", some 9000, 22, true⟩ rfl).1
      (by decide)⟩

/-! ## Server wire protocol (server.py)

`Server.handle_connection` wraps one session in `_safe_connection`,
which catches every exception (logging it and closing the socket), so
nothing escapes the per-connection handler.  After the config
handshake the serving loop repeats: `conn.recv(8)`, break when the
returned chunk is empty or not exactly 8 bytes, otherwise decode the
two big-endian 4-byte fields, read the payload, decompress, run the
model, and send the response.  The embedding drives the loop with an
explicit script of read results (one list of byte values per recv or
receive_full_message call) and an oracle `handle` for the
decompress-process-compress step, which may fail (an exception that
`_safe_connection` would catch). -/

/-- Model of Python int.from_bytes(bs, "big"). -/
def fromBytesBE (bs : List Nat) : Nat :=
  bs.foldl (fun acc b => acc * 256 + b) 0

/-- Model of Python n.to_bytes(w, "big").  (Python raises
OverflowError for n at or above 256 ^ w; below that bound the modulo
is the identity.) -/
def toBytesBE (w n : Nat) : List Nat :=
  (List.range w).map (fun i => n / 256 ^ (w - 1 - i) % 256)

/-- How one serving loop ends: `cleanBreak` is the break statement on
a short or absent header (no exception raised at all), `errorExit` is
an exception propagating out of the loop into the catch-all of
`_safe_connection`. -/
inductive LoopExit where
  | cleanBreak
  | errorExit
deriving DecidableEq

/-- The serving loop of `Server.handle_connection`, over a script of
connection reads.  Returns the responses sent, how the loop ended,
and the reads that were never consumed.  An exhausted script models a
closed connection, whose recv returns the empty chunk; a header chunk
of length other than 8 takes the break path; a header with no
following payload read models receive_full_message hitting the closed
connection, after which decompression of the short data raises. -/
def servingLoop (handle : Nat → Nat → List Nat → Except Unit (List Nat)) :
    List (List Nat) → List (List Nat) × LoopExit × List (List Nat)
  | [] => ([], LoopExit.cleanBreak, [])
  | header :: rest =>
      if header.length = 8 then
        match rest with
        | [] => ([], LoopExit.errorExit, [])
        | payload :: rest2 =>
            match handle (fromBytesBE (header.take 4))
                (fromBytesBE (header.drop 4)) payload with
            | Except.ok resp =>
                match servingLoop handle rest2 with
                | (sent, ex, rem) => (resp :: sent, ex, rem)
            | Except.error _ => ([], LoopExit.errorExit, rest2)
      else ([], LoopExit.cleanBreak, rest)

/-- Claim C7: a header read that yields fewer than 8 bytes (a
zero-length read from a closed connection included) ends the serving
loop through the clean break path: no response is written, no
exception is raised (so a fortiori none escapes `_safe_connection`),
and the remaining reads of the connection are left untouched, i.e. no
further read is attempted. -/
theorem short_header_clean_exit
    (handle : Nat → Nat → List Nat → Except Unit (List Nat))
    (header : List Nat) (rest : List (List Nat))
    (h : header.length < 8) :
    servingLoop handle (header :: rest) =
      ([], LoopExit.cleanBreak, rest) := by
  have hne : ¬(header.length = 8) := by omega
  unfold servingLoop
  rw [if_neg hne]

/-- Claim C7, witness: a zero-length header read before a pending
chunk ends the session with that chunk never read. -/
theorem short_header_clean_exit_witness :
    servingLoop (fun _ _ _ => Except.ok []) ([] :: [[1, 2, 3]]) =
      ([], LoopExit.cleanBreak, [[1, 2, 3]]) :=
  short_header_clean_exit (fun _ _ _ => Except.ok []) [] [[1, 2, 3]]
    (by decide)

/-! ## Response framing (`Server._send_result`)

The server sends `result_size.to_bytes(4, "big")`, then
`str(processing_time).ljust(4).encode()[:4]`, then the compressed
result.  The float-to-text conversion `str(processing_time)` is
Python float formatting, an external conversion, so the framing is
embedded as a function of the already formatted time string; its
output is ASCII, which makes encode() the identity on character
codes. -/

/-- Model of Python s.ljust(width): pad on the RIGHT with spaces up to
width (left-justification). -/
def pyLjust (s : String) (width : Nat) : String :=
  String.mk (s.data ++ List.replicate (width - s.length) ' ')

/-- The processing-time field: ljust(4), encode, truncate to 4
bytes. -/
def timeField (timeStr : String) : List Nat :=
  ((pyLjust timeStr 4).data.map Char.toNat).take 4

/-- Padding on the LEFT, as the words of the spec (left-padded)
describe; written only to compare against what `_send_result`
computes. -/
def pyRjust (s : String) (width : Nat) : String :=
  String.mk (List.replicate (width - s.length) ' ' ++ s.data)

/-- The processing-time field as the spec words it: left-padded to 4
bytes, then truncated to 4 bytes. -/
def timeFieldSpecLeftPad (timeStr : String) : List Nat :=
  ((pyRjust timeStr 4).data.map Char.toNat).take 4

/-- `Server._send_result`: the byte sequence written for one response,
in write order. -/
def sendResult (result_size : Nat) (timeStr : String)
    (compressed : List Nat) : List Nat :=
  toBytesBE 4 result_size ++ (timeField timeStr ++ compressed)

/-- Claim C8, counterexample: for the formatted time "0.5" the field
the server sends is "0.5 " (padding space LAST), not the left-padded
" 0.5" the claim describes, so the claim is false at this input. -/
theorem response_time_left_pad_counterexample :
    timeField "0.5" = [48, 46, 53, 32]
    ∧ timeFieldSpecLeftPad "0.5" = [32, 48, 46, 53]
    ∧ timeField "0.5" ≠ timeFieldSpecLeftPad "0.5" := by
  refine ⟨by decide, by decide, by decide⟩

/-- Claim C8 (amended): for every response, the processing-time field
is exactly 4 bytes of ASCII, RIGHT-padded with spaces (ljust) or
truncated to 4 bytes, and it sits immediately after the 4-byte
big-endian result-length header and immediately before the compressed
result bytes. -/
theorem response_framing (n : Nat) (t : String) (comp : List Nat) :
    (timeField t).length = 4
    ∧ (sendResult n t comp).take 4 = toBytesBE 4 n
    ∧ ((sendResult n t comp).drop 4).take 4 = timeField t
    ∧ (sendResult n t comp).drop 8 = comp
    ∧ (t.data.all (fun c => decide (c.toNat < 128)) = true →
        (timeField t).all (fun b => decide (b < 128)) = true) := by
  have hlen4 : (toBytesBE 4 n).length = 4 := by simp [toBytesBE]
  have htf : (timeField t).length = 4 := by
    have hdata : (pyLjust t 4).data = t.data ++ List.replicate
        (4 - t.length) ' ' := rfl
    have hslen : t.length = t.data.length := rfl
    simp only [timeField, List.length_take, List.length_map, hdata,
      List.length_append, List.length_replicate]
    omega
  have h2 : (sendResult n t comp).drop 4 = timeField t ++ comp := by
    rw [sendResult, ← hlen4]
    exact List.drop_left _ _
  refine ⟨htf, ?_, ?_, ?_, ?_⟩
  · rw [sendResult, ← hlen4]
    exact List.take_left _ _
  · rw [h2, ← htf]
    exact List.take_left _ _
  · have h8 : (sendResult n t comp).drop 8 =
        ((sendResult n t comp).drop 4).drop 4 := by
      rw [List.drop_drop]
    rw [h8, h2, ← htf]
    exact List.drop_left _ _
  · intro hascii
    rw [List.all_eq_true] at hascii ⊢
    intro b hb
    have hb2 : b ∈ (pyLjust t 4).data.map Char.toNat :=
      List.take_subset _ _ hb
    rcases List.mem_map.mp hb2 with ⟨c, hc, hcb⟩
    have hc2 : c ∈ t.data ++ List.replicate (4 - t.length) ' ' := hc
    rcases List.mem_append.mp hc2 with hm | hm
    · have := hascii c hm
      simp only [decide_eq_true_eq] at this ⊢
      omega
    · have hsp : c = ' ' := List.eq_of_mem_replicate hm
      subst hsp
      subst hcb
      decide

/-- Claim C8 (amended), witness: the field for the ASCII time string
"0.12" is 4 ASCII bytes. -/
theorem response_framing_witness :
    (timeField "0.12").all (fun b => decide (b < 128)) = true :=
  (response_framing 5 "0.12" [9, 9]).2.2.2.2 (by decide)

/-! ## Split-boundary sweep (src/utils/experiment_utils.py)

`SplitExperimentRunner.run_experiment` iterates
`range(1, total_layers)`, calls `test_split_performance` per split
layer, and picks `min(performance_records, key=lambda x: x[4])`.
`test_split_performance` runs `process_single_image` per work item,
which returns None on any per-item exception (the item is then
excluded), and `_calculate_total_times` sums the per-item host,
travel and server times and their grand total.  The per-item timing
measurement is wall-clock and model execution, an external effect, so
it enters as the oracle `itemTimes`: for each split layer, the list
of per-item results, None for an item whose processing raised.  Times
are embedded as rationals; the claims under study concern the
summation and selection structure, which is the same in any ordered
field. -/

/-- One row of performance_records:
(split layer, host, travel, server, total). -/
structure PerfRecord where
  split_layer : Nat
  host : ℚ
  travel : ℚ
  server : ℚ
  total : ℚ
deriving DecidableEq

/-- `_calculate_total_times`: the three sums and their total.
(Python sum folds from the left over floats; over rationals the fold
direction is immaterial.) -/
def calcTotalTimes (host_times travel_times server_times : List ℚ) :
    ℚ × ℚ × ℚ × ℚ :=
  (host_times.sum, travel_times.sum, server_times.sum,
    host_times.sum + travel_times.sum + server_times.sum)

/-- `test_split_performance` for one split layer: drop the failed
work items, split the surviving triples into the three time lists,
and total them. -/
def testSplitPerformance (itemTimes : List (Option (ℚ × ℚ × ℚ))) :
    ℚ × ℚ × ℚ × ℚ :=
  calcTotalTimes
    ((itemTimes.filterMap id).map (fun x => x.1))
    ((itemTimes.filterMap id).map (fun x => x.2.1))
    ((itemTimes.filterMap id).map (fun x => x.2.2))

/-- The row appended to performance_records for one split layer. -/
def boundaryRecord (itemTimes : Nat → List (Option (ℚ × ℚ × ℚ)))
    (sl : Nat) : PerfRecord :=
  ⟨sl, (testSplitPerformance (itemTimes sl)).1,
    (testSplitPerformance (itemTimes sl)).2.1,
    (testSplitPerformance (itemTimes sl)).2.2.1,
    (testSplitPerformance (itemTimes sl)).2.2.2⟩

/-- performance_records of `run_experiment`: one row per split layer
in `range(1, total_layers)`. -/
def runRecords (total_layers : Nat)
    (itemTimes : Nat → List (Option (ℚ × ℚ × ℚ))) : List PerfRecord :=
  (List.range' 1 (total_layers - 1)).map (boundaryRecord itemTimes)

/-- Model of Python `min(xs, key=k)`: scan left to right, replacing
the current best only on a strictly smaller key, so the first minimum
wins; None models the ValueError on an empty sequence. -/
def pyMinBy (key : α → ℚ) : List α → Option α
  | [] => none
  | x :: xs =>
      some (xs.foldl (fun best a => if key a < key best then a else best) x)

/-- The best row selected by `run_experiment`. -/
def runExperimentBest (total_layers : Nat)
    (itemTimes : Nat → List (Option (ℚ × ℚ × ℚ))) : Option PerfRecord :=
  pyMinBy (fun r => r.total) (runRecords total_layers itemTimes)

theorem foldl_min_split (key : α → ℚ) :
    ∀ (xs : List α) (b m : α),
      xs.foldl (fun best a => if key a < key best then a else best) b = m →
      (m = b ∧ ∀ y ∈ xs, key b ≤ key y)
      ∨ (∃ l₁ l₂, xs = l₁ ++ m :: l₂ ∧ key m < key b
          ∧ (∀ y ∈ l₁, key m < key y) ∧ (∀ y ∈ l₂, key m ≤ key y)) := by
  intro xs
  induction xs with
  | nil =>
      intro b m h
      simp only [List.foldl_nil] at h
      exact Or.inl ⟨h.symm, by simp⟩
  | cons a xs ih =>
      intro b m h
      simp only [List.foldl_cons] at h
      by_cases hab : key a < key b
      · rw [if_pos hab] at h
        rcases ih a m h with ⟨hm, hall⟩ | ⟨l₁, l₂, hxs, hlt, h1, h2⟩
        · refine Or.inr ⟨[], xs, by simp [hm], ?_, by simp, ?_⟩
          · rw [hm]; exact hab
          · intro y hy; rw [hm]; exact hall y hy
        · refine Or.inr ⟨a :: l₁, l₂, by simp [hxs], hlt.trans hab, ?_, h2⟩
          intro y hy
          rcases List.mem_cons.mp hy with rfl | hy2
          · exact hlt
          · exact h1 y hy2
      · rw [if_neg hab] at h
        have hba : key b ≤ key a := le_of_not_lt hab
        rcases ih b m h with ⟨hm, hall⟩ | ⟨l₁, l₂, hxs, hlt, h1, h2⟩
        · refine Or.inl ⟨hm, ?_⟩
          intro y hy
          rcases List.mem_cons.mp hy with rfl | hy2
          · exact hba
          · exact hall y hy2
        · refine Or.inr ⟨a :: l₁, l₂, by simp [hxs], hlt, ?_, h2⟩
          intro y hy
          rcases List.mem_cons.mp hy with rfl | hy2
          · exact hlt.trans_le hba
          · exact h1 y hy2

/-- Python min with a key returns the first element attaining the
minimal key: everything before it is strictly larger, everything
after it at least as large. -/
theorem pyMinBy_first_min (key : α → ℚ) (l : List α) (m : α)
    (h : pyMinBy key l = some m) :
    ∃ l₁ l₂, l = l₁ ++ m :: l₂ ∧ (∀ y ∈ l₁, key m < key y)
      ∧ (∀ y ∈ l₂, key m ≤ key y) := by
  cases l with
  | nil => cases h
  | cons x xs =>
      simp only [pyMinBy, Option.some_inj] at h
      rcases foldl_min_split key xs x m h with ⟨hm, hall⟩ |
          ⟨l₁, l₂, hxs, hltx, h1, h2⟩
      · refine ⟨[], xs, by simp [hm], by simp, ?_⟩
        intro y hy
        rw [hm]
        exact hall y hy
      · refine ⟨x :: l₁, l₂, by simp [hxs], ?_, h2⟩
        intro y hy
        rcases List.mem_cons.mp hy with rfl | hy2
        · exact hltx
        · exact h1 y hy2

/-- Claim C9: the sweep covers boundaries 1 through N-1; each row
aggregates the host, travel and server times as sums over the
successful work items at that boundary, with total = host + travel +
server; and the selected best row attains the minimal total, every
earlier row being strictly larger (first-encountered tie-breaking). -/
theorem sweep_aggregation_and_min (N : Nat)
    (itemTimes : Nat → List (Option (ℚ × ℚ × ℚ))) (hN : 2 ≤ N) :
    ((runRecords N itemTimes).map PerfRecord.split_layer =
      List.range' 1 (N - 1))
    ∧ (∀ r ∈ runRecords N itemTimes,
        r.host = (((itemTimes r.split_layer).filterMap id).map
            (fun x => x.1)).sum
        ∧ r.travel = (((itemTimes r.split_layer).filterMap id).map
            (fun x => x.2.1)).sum
        ∧ r.server = (((itemTimes r.split_layer).filterMap id).map
            (fun x => x.2.2)).sum
        ∧ r.total = r.host + r.travel + r.server)
    ∧ (∀ b, runExperimentBest N itemTimes = some b →
        ∃ l₁ l₂, runRecords N itemTimes = l₁ ++ b :: l₂
          ∧ (∀ y ∈ l₁, b.total < y.total)
          ∧ (∀ y ∈ l₂, b.total ≤ y.total)) := by
  refine ⟨?_, ?_, ?_⟩
  · rw [runRecords, List.map_map]
    have hcomp : PerfRecord.split_layer ∘ boundaryRecord itemTimes = id :=
      funext fun sl => rfl
    rw [hcomp, List.map_id]
  · intro r hr
    rcases List.mem_map.mp hr with ⟨sl, hsl, rfl⟩
    exact ⟨rfl, rfl, rfl, rfl⟩
  · intro b hb
    unfold runExperimentBest at hb
    exact pyMinBy_first_min (fun r => r.total) _ b hb

/-- Claim C9, witness: with 3 layers the sweep produces exactly the
rows for boundaries 1 and 2. -/
theorem sweep_aggregation_and_min_witness :
    (runRecords 3 (fun _ => [some ((1 : ℚ), 2, 3)])).map
      PerfRecord.split_layer = List.range' 1 (3 - 1) :=
  (sweep_aggregation_and_min 3 (fun _ => [some ((1 : ℚ), 2, 3)])
    (by decide)).1
